import Mathlib

/-!
Verification of the `pkg/chat` package of the go-chat repository (the
channel-based server in `pkg/chat/server.go` together with the client in
`pkg/chat/client.go`).

Modelling conventions, shared by every definition below:

* A `*Client` value of the Go program is a `Sess`; Go distinguishes clients
  by pointer identity, which is modelled by the `id : Nat` field.
* The two maps `Server.Clients` and `Server.ClientJoinTime` are updated in
  lockstep at every site of the source (`registerClient` sets both,
  `unregisterClient` and `broadcastMessage` delete both), so they are
  modelled together: a `Hub` is the list of all `Client` structs created so
  far, and membership in `Server.Clients` (with the join time attached) is
  the `registered` flag.  Deleting a client from both maps is
  `registered := false`.
* A client's buffered `Send` channel (capacity 256) is the `queue` field
  plus the `closed` flag; `close(client.Send)` is `closed := true`.  A
  non-blocking (`select`/`default`) send succeeds exactly when the buffer
  has free capacity; a plain blocking send on a full open channel leaves
  the sender waiting, and a send on a closed channel panics — these three
  outcomes are the constructors of `CmdResult`.
* Wall-clock instants (`time.Time`) are `Int` nanoseconds; `time.Since t`
  at instant `now` is `now - t`.
* Go string operations are modelled on the character list `String.data`;
  `strings.EqualFold` is modelled as ASCII case folding (every username in
  the claims is ASCII), `strings.TrimSpace` trims the ASCII whitespace
  characters.
* The rendering of `time.Now().Format(time.RFC1123)` in the `/time` reply
  is abstracted by `timeString`; no claim depends on its text.
-/

/-- Payload of one outbound message (`[]byte` in the source, always text). -/
abbrev Msg := String

/-- Capacity of a client's buffered `Send` channel: `make(chan []byte, 256)`. -/
def sendQueueCap : Nat := 256

/-- One `*chat.Client` struct together with its registry state (see the
module comment): `registered` is membership in `Server.Clients` (and in
`Server.ClientJoinTime`), `queue`/`closed` model the `Send` channel. -/
structure Sess where
  id : Nat
  username : String
  joinTime : Int
  queue : List Msg
  registered : Bool
  closed : Bool
  deriving Repr, DecidableEq

/-- The hub's mutable state: every `Client` struct created so far, in
creation order.  `Server.Clients` is the sublist with `registered = true`. -/
abbrev Hub := List Sess

/-- Go `==` on strings (comparison of the character sequences). -/
def strEq (a b : String) : Bool := decide (a.data = b.data)

/-- `listIsPre p s` is true when `p` is a leading segment of `s`. -/
def listIsPre : List Char → List Char → Bool
  | [], _ => true
  | _ :: _, [] => false
  | a :: as, b :: bs => a == b && listIsPre as bs

/-- Go `strings.HasPrefix s p` on the character sequences. -/
def strStartsWith (s p : String) : Bool := listIsPre p.data s.data

/-- Splits a character list at its first space: `none` when no space occurs,
otherwise the characters before and after the first space.  `strings.SplitN(x,
" ", 2)` returns `[x]` in the first case and the two surrounding parts in the
second, so `len(parts) != 2` in the source is exactly the `none` case here. -/
def breakAtSpace : List Char → Option (List Char × List Char)
  | [] => none
  | c :: cs =>
    if c = ' ' then some ([], cs)
    else (breakAtSpace cs).map (fun p => (c :: p.1, p.2))

/-- ASCII whitespace trimmed by `strings.TrimSpace` (the claims' inputs are
ASCII; Unicode spaces are not modelled). -/
def goIsSpace (c : Char) : Bool :=
  c == ' ' || c == '\t' || c == '\n' || c == '\x0b' || c == '\x0c' || c == '\r'

/-- Go `strings.TrimSpace`: drops leading and trailing whitespace. -/
def goTrim (s : String) : String :=
  String.mk (((s.data.dropWhile goIsSpace).reverse.dropWhile goIsSpace).reverse)

/-- Go `strings.EqualFold` restricted to ASCII simple folding: equality of
the two character sequences after lower-casing. -/
def eqFold (a b : String) : Bool :=
  decide (a.data.map Char.toLower = b.data.map Char.toLower)

/-- Characters rejected in a username by `RunClient`:
`strings.ContainsAny(username, " \t\n/\\:")`. -/
def badChar (c : Char) : Bool :=
  c == ' ' || c == '\t' || c == '\n' || c == '/' || c == '\\' || c == ':'

/-- Username validation performed by the client (`RunClient`,
`pkg/chat/client.go` lines 18-26) before it even dials the server: `some
err` is the error returned (no connection is made), `none` lets the client
connect.  Go `len` is the byte length. -/
def validateUsername (u : String) : Option String :=
  if u.utf8ByteSize < 2 || u.utf8ByteSize > 20 then
    some "username must be between 2 and 20 characters"
  else if u.data.any badChar then
    some "username cannot contain spaces or special characters (/, \\, :)"
  else none

/-- The welcome notice built by `registerClient`; `count` is `len(s.Clients)`
after the insertion. -/
def mkWelcome (uname : String) (count : Nat) : Msg :=
  "Welcome " ++ uname ++ "! There are " ++ toString count ++
    " users online. Type /help for available commands."

/-- The join announcement `registerClient` tries to broadcast. -/
def joinAnn (uname : String) : Msg := "*** " ++ uname ++ " joined the chat ***"

/-- The leave announcement `unregisterClient` tries to broadcast. -/
def leftAnn (uname : String) : Msg := "*** " ++ uname ++ " left the chat ***"

/-- Rejection notice `HandleWebSocket` writes for a taken username. -/
def dupNotice : Msg :=
  "ERROR: Username already taken. Please try again with a different name."

/-- The static `/help` reply (a Go raw-string literal, hence the leading and
trailing newlines). -/
def helpMsg : Msg :=
  "\nAvailable commands:\n/help - Show this help message\n/users - List all connected users\n/time - Show current server time\n/exit - Exit the chat\n/whisper <username> <message> - Send private message to a user\n"

/-- The `/whisper` usage error. -/
def usageMsg : Msg := "Usage: /whisper <username> <message>"

/-- The unknown-command reply. -/
def unknownReply (cmd : String) : Msg :=
  "Unknown command: " ++ cmd ++ ". Type /help for available commands."

/-- Abstract rendering of `time.Now().Format(time.RFC1123)`; no claim
depends on the reply's text, only on it being a single enqueue. -/
def timeString (now : Int) : String := toString now

/-- The `/time` reply. -/
def timeReply (now : Int) : Msg := "Server time: " ++ timeString now

/-- One iteration of the loop body of `broadcastMessage` (`server.go` lines
117-127) on one session: a registered session's queue receives the message
when it has free capacity (the `select` send succeeds); otherwise the
session's channel is closed and it is deleted from `Clients` and
`ClientJoinTime`.  A session not in `Clients` is not visited by the loop. -/
def deliverOne (m : Msg) (s : Sess) : Sess :=
  if s.registered then
    if s.queue.length < sendQueueCap then { s with queue := s.queue ++ [m] }
    else { s with registered := false, closed := true }
  else s

/-- `Server.broadcastMessage` (`server.go` lines 112-128): under the lock,
every registered session is visited once; the loop body is pointwise, so the
map order is irrelevant. -/
def broadcastMessage (h : Hub) (m : Msg) : Hub := h.map (deliverOne m)

/-- A sequence of broadcasts in invocation order. -/
def broadcastAll (h : Hub) (ms : List Msg) : Hub := ms.foldl broadcastMessage h

/-- `Server.registerClient` (`server.go` lines 79-94) up to its last
statement: inserts the fresh client into both maps, computes the online
count (`len(s.Clients)` after the insertion), and enqueues the welcome onto
the fresh client's own (empty) queue.  The returned message is the join
announcement the function then sends on `s.Broadcast` — the step relation
`Step` below gives that send its semantics. -/
def registerClient (h : Hub) (now : Int) (id : Nat) (uname : String) : Hub × Msg :=
  let fresh : Sess :=
    { id := id, username := uname, joinTime := now, queue := [],
      registered := true, closed := false }
  let count := ((h ++ [fresh]).filter (fun s => s.registered)).length
  (h ++ [{ fresh with queue := [mkWelcome uname count] }], joinAnn uname)

/-- `Server.unregisterClient` (`server.go` lines 96-110) up to its last
statement: when the client is present in `Clients` it is deleted from both
maps and its channel closed, and the leave announcement the function then
sends on `s.Broadcast` is returned as `some`; otherwise nothing happens
(`none`). -/
def unregisterClient (h : Hub) (id : Nat) : Hub × Option Msg :=
  match h.find? (fun s => s.registered && s.id == id) with
  | some s =>
    (h.map (fun t => if t.id == id then { t with registered := false, closed := true } else t),
     some (leftAnn s.username))
  | none => (h, none)

/-- Duration rounding `time.Since(join).Round(time.Second)` in nanoseconds:
to the nearest second, ties away from zero, result in whole seconds. -/
def goRoundSecond (d : Int) : Int :=
  if 0 ≤ d then (d + 500000000) / 1000000000
  else -((-d + 500000000) / 1000000000)

/-- Go `time.Duration.String` for a whole number of seconds ("5s", "1m30s",
"1h0m0s"). -/
def goDurStringNat (s : Nat) : String :=
  if s < 60 then toString s ++ "s"
  else if s < 3600 then toString (s / 60) ++ "m" ++ toString (s % 60) ++ "s"
  else
    toString (s / 3600) ++ "h" ++ toString (s % 3600 / 60) ++ "m" ++
      toString (s % 60) ++ "s"

/-- Go `time.Duration.String` of a whole-second duration. -/
def goDurString (secs : Int) : String :=
  if secs < 0 then "-" ++ goDurStringNat (-secs).toNat else goDurStringNat secs.toNat

/-- One entry of `Server.GetClientList`:
`fmt.Sprintf("%s (connected for %s)", username, duration)`. -/
def fmtUser (now : Int) (s : Sess) : String :=
  s.username ++ " (connected for " ++ goDurString (goRoundSecond (now - s.joinTime)) ++ ")"

/-- `Server.GetClientList` (`server.go` lines 180-191): a snapshot of the
registered sessions taken under the lock, one formatted entry each. -/
def getClientList (h : Hub) (now : Int) : List String :=
  (h.filter (fun s => s.registered)).map (fmtUser now)

/-- The `/users` reply built by `handleCommand`: header with `len(users)`,
then the numbered entries. -/
def usersReply (h : Hub) (now : Int) : Msg :=
  let users := getClientList h now
  "Connected users (" ++ toString users.length ++ "):\n" ++
    String.join (users.enum.map (fun p => toString (p.1 + 1) ++ ". " ++ p.2 ++ "\n"))

/-- Username of the `Client` struct with the given identity (`c.Username` /
`client.Username` in the source; callers always hold a live struct, the
default is never reached). -/
def usernameOf (h : Hub) (id : Nat) : String :=
  match h.find? (fun s => s.id == id) with
  | some s => s.username
  | none => ""

/-- Immediate outcome of one plain (blocking) channel send, and of the
command handler built from such sends: `done` with the new state, `blockedFull`
when the target queue is full and open (the sending goroutine waits on the
channel; the state at the moment of blocking is carried), `panicked` for a
send on a closed channel. -/
inductive CmdResult where
  | done (h : Hub)
  | blockedFull (h : Hub) (id : Nat) (m : Msg)
  | panicked
  deriving Repr, DecidableEq

/-- A plain blocking send `x.Send <- m` to the session with identity `id`. -/
def sendTo (h : Hub) (id : Nat) (m : Msg) : CmdResult :=
  match h.find? (fun s => s.id == id) with
  | none => CmdResult.panicked
  | some s =>
    if s.closed then CmdResult.panicked
    else if s.queue.length < sendQueueCap then
      CmdResult.done
        (h.map (fun t => if t.id == id then { t with queue := t.queue ++ [m] } else t))
    else CmdResult.blockedFull h id m

/-- Sequencing of a second send after a first one: it happens only if the
first completed. -/
def andThen (r : CmdResult) (id : Nat) (m : Msg) : CmdResult :=
  match r with
  | CmdResult.done h => sendTo h id m
  | r => r

/-- `Client.handleCommand` (`server.go` lines 274-326), for the session with
identity `senderId` at instant `now`.  Every reply is a plain blocking
`c.Send <- ...`; the `/whisper` branch slices off the 9 bytes of
`"/whisper "` (`cmd[9:]`), splits at the first space (`SplitN(..., " ", 2)`,
see `breakAtSpace`), trims the target, resolves it case-insensitively among
the registered sessions and sends to the target then to the sender. -/
def handleCommand (h : Hub) (now : Int) (senderId : Nat) (cmd : String) : CmdResult :=
  if strEq cmd "/help" then sendTo h senderId helpMsg
  else if strEq cmd "/users" then sendTo h senderId (usersReply h now)
  else if strEq cmd "/time" then sendTo h senderId (timeReply now)
  else if strStartsWith cmd "/whisper " then
    match breakAtSpace (cmd.data.drop 9) with
    | none => sendTo h senderId usageMsg
    | some p =>
      match h.find? (fun s =>
          s.registered && eqFold s.username (goTrim (String.mk p.1))) with
      | none =>
        sendTo h senderId ("User '" ++ goTrim (String.mk p.1) ++ "' not found")
      | some t =>
        andThen
          (sendTo h t.id
            ("[PM from " ++ usernameOf h senderId ++ "]: " ++ String.mk p.2))
          senderId ("[PM to " ++ goTrim (String.mk p.1) ++ "]: " ++ String.mk p.2)
  else sendTo h senderId (unknownReply cmd)

/-- Result of `Server.HandleWebSocket` (`server.go` lines 131-178) once the
username has been read: `rejected notice` is one `WriteMessage` of the
notice to the connection followed by `Close`, with no registration;
`admitted` carries the hub after `registerClient` processed the `Register`
event, and the join announcement `registerClient` then tries to broadcast. -/
inductive AdmitResult where
  | rejected (notice : Msg)
  | admitted (h : Hub) (ann : Msg)
  deriving Repr, DecidableEq

/-- `Server.HandleWebSocket` after reading the username: the case-insensitive
duplicate scan over the registered sessions under the lock, then either the
rejection notice or the construction and registration of the fresh client.
Note the function performs no username shape validation. -/
def handleWebSocket (h : Hub) (now : Int) (freshId : Nat) (uname : String) : AdmitResult :=
  if h.any (fun s => s.registered && eqFold s.username uname) then
    AdmitResult.rejected dupNotice
  else
    AdmitResult.admitted (registerClient h now freshId uname).1
      (registerClient h now freshId uname).2

/-- Routing decision of `Client.ReadPump` (`server.go` lines 206-226) for one
inbound message: a leading `/` goes to the command interpreter and is not
broadcast, everything else — the pump has no empty-or-whitespace filter — is
wrapped as `"<username>: <text>"` and submitted to the broadcast channel. -/
inductive ReadAction where
  | command (cmd : String)
  | broadcast (m : Msg)
  deriving Repr, DecidableEq

/-- The per-message routing of `Client.ReadPump`. -/
def readPumpRoute (uname msgText : String) : ReadAction :=
  if strStartsWith msgText "/" then ReadAction.command msgText
  else ReadAction.broadcast (uname ++ ": " ++ msgText)

/-- Effects of the reader pump over a sequence of inbound messages: the
broadcast submissions and the commands routed to the interpreter, each in
order. -/
def readPumpEffects (uname : String) (msgs : List String) : List Msg × List String :=
  (msgs.filterMap (fun t =>
      match readPumpRoute uname t with
      | ReadAction.broadcast m => some m
      | ReadAction.command _ => none),
   msgs.filterMap (fun t =>
      match readPumpRoute uname t with
      | ReadAction.command c => some c
      | ReadAction.broadcast _ => none))

/-- One step of the client's input loop (`RunClient`, `pkg/chat/client.go`
lines 77-107): empty and whitespace-only lines are skipped before sending,
`/exit` sends a close frame and leaves the loop, anything else is sent to
the server as a text message. -/
inductive ClientInputAction where
  | skip
  | closeFrame
  | send (m : String)
  deriving Repr, DecidableEq

/-- The client-side handling of one input line. -/
def clientInputStep (line : String) : ClientInputAction :=
  if strEq (goTrim line) "" then ClientInputAction.skip
  else if strEq line "/exit" then ClientInputAction.closeFrame
  else ClientInputAction.send line

/-- Program counter of the single goroutine running `Server.Run`
(`server.go` lines 65-76): either parked at the `select`, or inside
`registerClient`/`unregisterClient` blocked at the statement
`s.Broadcast <- ...` (an unbuffered channel send) while still holding
`s.Mutex`. -/
inductive RunPC where
  | atSelect
  | blockedSend (ann : Msg)
  deriving Repr, DecidableEq

/-- A configuration of the server's goroutines: the hub state, the `Run`
goroutine's position, and the goroutines currently blocked sending on the
three unbuffered channels: `HandleWebSocket` callers on `Register`
(identity, username, dial instant), reader-pump deferred sends on
`Unregister`, and reader pumps on `Broadcast`. -/
structure Sys where
  hub : Hub
  pc : RunPC
  regQ : List (Nat × String × Int)
  unregQ : List Nat
  bcastQ : List Msg
  deriving Repr, DecidableEq

/-- Small-step semantics of the `Run` loop, with the rendezvous semantics of
Go's unbuffered channels: a send on `Register`, `Unregister` or `Broadcast`
completes only together with a receive, and the only receives on those three
channels in the whole program are the arms of the `select` in `Server.Run`.
Hence every constructor requires `pc = atSelect`; in particular no step at
all is possible from `pc = blockedSend ann`: the announcement `ann` the `Run`
goroutine itself is sending from inside `registerClient`/`unregisterClient`
has no possible receiver, because the only receiver is the `Run` goroutine,
which is the sender. -/
inductive Step : Sys → Sys → Prop where
  | register (s : Sys) (id : Nat) (u : String) (t : Int)
      (rest : List (Nat × String × Int))
      (hpc : s.pc = RunPC.atSelect) (hq : s.regQ = (id, u, t) :: rest) :
      Step s
        { hub := (registerClient s.hub t id u).1,
          pc := RunPC.blockedSend (registerClient s.hub t id u).2,
          regQ := rest, unregQ := s.unregQ, bcastQ := s.bcastQ }
  | unregisterHit (s : Sys) (id : Nat) (rest : List Nat) (ann : Msg)
      (hpc : s.pc = RunPC.atSelect) (hq : s.unregQ = id :: rest)
      (hres : (unregisterClient s.hub id).2 = some ann) :
      Step s
        { hub := (unregisterClient s.hub id).1,
          pc := RunPC.blockedSend ann,
          regQ := s.regQ, unregQ := rest, bcastQ := s.bcastQ }
  | unregisterMiss (s : Sys) (id : Nat) (rest : List Nat)
      (hpc : s.pc = RunPC.atSelect) (hq : s.unregQ = id :: rest)
      (hres : (unregisterClient s.hub id).2 = none) :
      Step s
        { hub := s.hub, pc := RunPC.atSelect,
          regQ := s.regQ, unregQ := rest, bcastQ := s.bcastQ }
  | deliverBroadcast (s : Sys) (m : Msg) (rest : List Msg)
      (hpc : s.pc = RunPC.atSelect) (hq : s.bcastQ = m :: rest) :
      Step s
        { hub := broadcastMessage s.hub m, pc := RunPC.atSelect,
          regQ := s.regQ, unregQ := s.unregQ, bcastQ := rest }

set_option maxRecDepth 100000

lemma broadcastMessage_getElem (h : Hub) (m : Msg) (i : Nat) :
    (broadcastMessage h m)[i]? = (h[i]?).map (deliverOne m) := by
  simp [broadcastMessage, List.getElem?_map]

lemma broadcastAll_cons (h : Hub) (m : Msg) (ms : List Msg) :
    broadcastAll h (m :: ms) = broadcastAll (broadcastMessage h m) ms := rfl

lemma broadcastAll_getElem (ms : List Msg) (h : Hub) (i : Nat) :
    (broadcastAll h ms)[i]? =
      (h[i]?).map (fun s => ms.foldl (fun t m => deliverOne m t) s) := by
  induction ms generalizing h with
  | nil => simp [broadcastAll]
  | cons m ms ih =>
    rw [broadcastAll_cons, ih, broadcastMessage_getElem]
    cases h[i]? <;> simp

lemma foldl_deliver_unregistered (ms : List Msg) (s : Sess)
    (hs : s.registered = false) :
    ms.foldl (fun t m => deliverOne m t) s = s := by
  induction ms with
  | nil => rfl
  | cons m ms ih =>
    rw [List.foldl_cons, show deliverOne m s = s by simp [deliverOne, hs]]
    exact ih

lemma foldl_deliver_space (ms : List Msg) (s : Sess) (hreg : s.registered = true)
    (hlen : s.queue.length + ms.length ≤ sendQueueCap) :
    ms.foldl (fun t m => deliverOne m t) s = { s with queue := s.queue ++ ms } := by
  induction ms generalizing s with
  | nil => simp
  | cons m ms ih =>
    have hlen' : s.queue.length + (ms.length + 1) ≤ sendQueueCap := by
      simpa using hlen
    have hlt : s.queue.length < sendQueueCap := by omega
    rw [List.foldl_cons, show deliverOne m s = { s with queue := s.queue ++ [m] } by
      simp [deliverOne, hreg, hlt]]
    rw [ih { s with queue := s.queue ++ [m] } hreg (by simp; omega)]
    simp

/-- Claim C1: a broadcast of `M` enqueues `M` onto the queue of every
registered session with free capacity (over a sequence of broadcasts, in
invocation order), while a registered session whose queue is already full is
instead removed from the registry (which deletes its join-time record) with
its queue closed, its queue receiving nothing — no leave announcement — and,
being unregistered, it receives nothing from any later broadcast. -/
theorem c1_broadcast_backpressure (h : Hub) (m : Msg) (i : Nat) (s : Sess)
    (hs : h[i]? = some s) :
    (s.registered = true → s.queue.length < sendQueueCap →
      (broadcastMessage h m)[i]? = some { s with queue := s.queue ++ [m] }) ∧
    (s.registered = true → sendQueueCap ≤ s.queue.length →
      (broadcastMessage h m)[i]? =
        some { s with registered := false, closed := true }) ∧
    (s.registered = false → (broadcastMessage h m)[i]? = some s) ∧
    (∀ ms : List Msg, s.registered = true →
      s.queue.length + ms.length ≤ sendQueueCap →
      (broadcastAll h ms)[i]? = some { s with queue := s.queue ++ ms }) ∧
    (∀ ms : List Msg, s.registered = false → (broadcastAll h ms)[i]? = some s) := by
  refine ⟨?_, ?_, ?_, ?_, ?_⟩
  · intro hreg hlt
    rw [broadcastMessage_getElem, hs]
    simp [deliverOne, hreg, hlt]
  · intro hreg hge
    rw [broadcastMessage_getElem, hs]
    simp [deliverOne, hreg, Nat.not_lt.mpr hge]
  · intro hreg
    rw [broadcastMessage_getElem, hs]
    simp [deliverOne, hreg]
  · intro ms hreg hlen
    rw [broadcastAll_getElem, hs]
    simp [foldl_deliver_space ms s hreg hlen]
  · intro ms hreg
    rw [broadcastAll_getElem, hs]
    simp [foldl_deliver_unregistered ms s hreg]

/-- Witness for C1 at a concrete hub: alice's queue has room and receives the
message; bob's queue is full, so bob is dropped from the registry with his
channel closed and receives nothing. -/
theorem c1_broadcast_backpressure_witness :
    (broadcastMessage
        [⟨0, "alice", 0, [], true, false⟩,
         ⟨1, "bob", 0, List.replicate 256 "x", true, false⟩] "hi")[0]? =
      some ⟨0, "alice", 0, ["hi"], true, false⟩ ∧
    (broadcastMessage
        [⟨0, "alice", 0, [], true, false⟩,
         ⟨1, "bob", 0, List.replicate 256 "x", true, false⟩] "hi")[1]? =
      some ⟨1, "bob", 0, List.replicate 256 "x", false, true⟩ :=
  ⟨(c1_broadcast_backpressure _ "hi" 0 ⟨0, "alice", 0, [], true, false⟩ rfl).1
      rfl (by decide),
   (c1_broadcast_backpressure _ "hi" 1
      ⟨1, "bob", 0, List.replicate 256 "x", true, false⟩ rfl).2.1 rfl (by decide)⟩

/-- Configuration of a fresh server whose first client ("alice") is blocked
in `HandleWebSocket` at `s.Register <- client`. -/
def c2Init : Sys :=
  { hub := [], pc := RunPC.atSelect, regQ := [(0, "alice", 0)],
    unregQ := [], bcastQ := [] }

/-- The one configuration reachable from `c2Init`: alice is inserted with her
welcome enqueued, and the `Run` goroutine is blocked forever at
`s.Broadcast <- join announcement` inside `registerClient`. -/
def c2After : Sys :=
  { hub := (registerClient [] 0 0 "alice").1,
    pc := RunPC.blockedSend (registerClient [] 0 0 "alice").2,
    regQ := [], unregQ := [], bcastQ := [] }

/-- Claim C2 (divergence evidence): processing the very first registration,
the hub inserts alice, records her join time and enqueues her welcome, but
then blocks forever at the `s.Broadcast <- ...` self-send: `c2After` is the
unique successor of `c2Init`, `c2After` has no successor at all, and the
join announcement is in no session's queue — it is never delivered to
anyone, contrary to the claim's "delivered to all registered sessions
including the new one". -/
theorem c2_register_join_announcement_lost :
    Step c2Init c2After ∧
    (∀ s : Sys, Step c2Init s → s = c2After) ∧
    (∀ s : Sys, ¬ Step c2After s) ∧
    c2After.hub = [⟨0, "alice", 0, [mkWelcome "alice" 1], true, false⟩] ∧
    (∀ s ∈ c2After.hub, joinAnn "alice" ∉ s.queue) := by
  refine ⟨?_, ?_, ?_, ?_, ?_⟩
  · exact Step.register c2Init 0 "alice" 0 [] rfl rfl
  · intro s hstep
    cases hstep with
    | register id u t rest hpc hq =>
      injection hq with h1 h2
      injection h1 with ha hb
      injection hb with hb1 hb2
      subst ha
      subst hb1
      subst hb2
      subst h2
      rfl
    | unregisterHit id rest ann hpc hq hres => simp [c2Init] at hq
    | unregisterMiss id rest hpc hq hres => simp [c2Init] at hq
    | deliverBroadcast m rest hpc hq => simp [c2Init] at hq
  · intro s hstep
    cases hstep <;>
      exact absurd (by assumption : c2After.pc = RunPC.atSelect) (by decide)
  · decide
  · intro s hs
    rw [show c2After.hub = [⟨0, "alice", 0, [mkWelcome "alice" 1], true, false⟩]
      from by decide] at hs
    simp at hs
    subst hs
    decide

/-- The alice session before her reader pump exits. -/
def c6Alice : Sess := ⟨0, "alice", 0, [], true, false⟩

/-- A second registered session observing the hub. -/
def c6Bob : Sess := ⟨1, "bob", 0, [], true, false⟩

/-- Configuration with alice and bob registered and alice's reader pump
blocked at its deferred `s.Unregister <- c`. -/
def c6Init : Sys :=
  { hub := [c6Alice, c6Bob], pc := RunPC.atSelect, regQ := [],
    unregQ := [0], bcastQ := [] }

/-- The one configuration reachable from `c6Init`: alice removed from both
maps with her channel closed, `Run` blocked forever at
`s.Broadcast <- leave announcement` inside `unregisterClient`. -/
def c6After : Sys :=
  { hub := (unregisterClient [c6Alice, c6Bob] 0).1,
    pc := RunPC.blockedSend (leftAnn "alice"), regQ := [], unregQ := [],
    bcastQ := [] }

/-- Counterfactual configuration for the idempotence half of C6: alice has
already been removed and a second unregister for her is pending, with `Run`
parked at the `select`. -/
def c6Dup : Sys :=
  { hub := (unregisterClient [c6Alice, c6Bob] 0).1, pc := RunPC.atSelect,
    regQ := [], unregQ := [0], bcastQ := [] }

/-- The no-op result of processing the duplicate unregister. -/
def c6DupAfter : Sys :=
  { hub := (unregisterClient [c6Alice, c6Bob] 0).1, pc := RunPC.atSelect,
    regQ := [], unregQ := [], bcastQ := [] }

/-- Claim C6 (divergence evidence): unregistering the registered session
alice removes her and her join-time record and closes her queue, but the hub
then blocks forever at the `s.Broadcast <- ...` self-send, so the leave
announcement reaches nobody (bob's queue stays empty) — contrary to the
claim's "broadcasts exactly one leave announcement".  The idempotence half
of the claim does hold: a duplicate unregister of the now-absent session is
a no-op that changes nothing and produces no announcement. -/
theorem c6_unregister_idempotent_announcement_lost :
    Step c6Init c6After ∧
    (∀ s : Sys, Step c6Init s → s = c6After) ∧
    (∀ s : Sys, ¬ Step c6After s) ∧
    c6After.hub = [⟨0, "alice", 0, [], false, true⟩, c6Bob] ∧
    (∀ s ∈ c6After.hub, leftAnn "alice" ∉ s.queue) ∧
    unregisterClient c6After.hub 0 = (c6After.hub, none) ∧
    Step c6Dup c6DupAfter ∧
    (∀ s : Sys, Step c6Dup s → s = c6DupAfter) := by
  refine ⟨?_, ?_, ?_, ?_, ?_, ?_, ?_, ?_⟩
  · exact Step.unregisterHit c6Init 0 [] (leftAnn "alice") rfl rfl rfl
  · intro s hstep
    cases hstep with
    | register id u t rest hpc hq => simp [c6Init] at hq
    | unregisterHit id rest ann hpc hq hres =>
      injection hq with h1 h2
      subst h1
      subst h2
      rw [show (unregisterClient c6Init.hub 0).2 = some (leftAnn "alice")
        from rfl] at hres
      injection hres with h3
      subst h3
      rfl
    | unregisterMiss id rest hpc hq hres =>
      injection hq with h1 h2
      subst h1
      exact absurd hres (by decide)
    | deliverBroadcast m rest hpc hq => simp [c6Init] at hq
  · intro s hstep
    cases hstep <;>
      exact absurd (by assumption : c6After.pc = RunPC.atSelect) (by decide)
  · decide
  · intro s hs
    rw [show c6After.hub = [⟨0, "alice", 0, [], false, true⟩, c6Bob]
      from by decide] at hs
    simp [c6Bob] at hs
    rcases hs with hs | hs <;> subst hs <;> decide
  · decide
  · exact Step.unregisterMiss c6Dup 0 [] rfl rfl (by decide)
  · intro s hstep
    cases hstep with
    | register id u t rest hpc hq => simp [c6Dup] at hq
    | unregisterHit id rest ann hpc hq hres =>
      injection hq with h1 h2
      subst h1
      rw [show (unregisterClient c6Dup.hub 0).2 = none from by decide] at hres
      exact Option.noConfusion hres
    | unregisterMiss id rest hpc hq hres =>
      injection hq with h1 h2
      subst h1
      subst h2
      rfl
    | deliverBroadcast m rest hpc hq => simp [c6Dup] at hq

lemma any_false_of_not_fold (h : Hub) (v : String)
    (hf : ∀ s ∈ h, s.registered = true → eqFold s.username v = false) :
    h.any (fun s => s.registered && eqFold s.username v) = false := by
  rw [List.any_eq_false]
  intro s hs
  cases hr : s.registered
  · simp [hr]
  · simp [hr, hf s hs hr]

lemma handleWebSocket_admitted (h : Hub) (now : Int) (id : Nat) (u : String)
    (hno : h.any (fun s => s.registered && eqFold s.username u) = false) :
    handleWebSocket h now id u =
      AdmitResult.admitted (registerClient h now id u).1 (joinAnn u) := by
  simp [handleWebSocket, hno, registerClient]

lemma handleWebSocket_rejected (h : Hub) (now : Int) (id : Nat) (u : String)
    (hyes : h.any (fun s => s.registered && eqFold s.username u) = true) :
    handleWebSocket h now id u = AdmitResult.rejected dupNotice := by
  simp [handleWebSocket, hyes]

lemma registerClient_mem (h : Hub) (now : Int) (id : Nat) (u : String) :
    ∃ s ∈ (registerClient h now id u).1, s.registered = true ∧ s.username = u := by
  simp only [registerClient]
  exact ⟨_, List.mem_append_right h (List.mem_singleton_self _), rfl, rfl⟩

lemma registerClient_mem_mono (h : Hub) (now : Int) (id : Nat) (u : String)
    (s : Sess) (hs : s ∈ h) : s ∈ (registerClient h now id u).1 := by
  simp only [registerClient]
  exact List.mem_append_left _ hs

lemma registerClient_any_false (h : Hub) (now : Int) (id : Nat) (u v : String)
    (hv : h.any (fun s => s.registered && eqFold s.username v) = false)
    (huv : eqFold u v = false) :
    ((registerClient h now id u).1).any
      (fun s => s.registered && eqFold s.username v) = false := by
  simp only [registerClient, List.any_append, hv, Bool.false_or]
  simp [huv]

/-- Claim C3: on a hub where neither name is taken, admitting valid username
A and then valid username B (A, B not case-insensitively equal) registers
both sessions; afterwards a third admission with any case-variant C of A is
rejected with exactly the single duplicate notice (one write, close, no
registration — the `rejected` outcome). -/
theorem c3_username_uniqueness (h : Hub) (a b c : String) (t1 t2 t3 : Int)
    (idA idB idC : Nat)
    (hva : validateUsername a = none) (hvb : validateUsername b = none)
    (hab : eqFold a b = false)
    (hfresh : ∀ s ∈ h, s.registered = true →
      eqFold s.username a = false ∧ eqFold s.username b = false)
    (hvar : eqFold a c = true) :
    ∃ h1 h2 : Hub,
      handleWebSocket h t1 idA a = AdmitResult.admitted h1 (joinAnn a) ∧
      (∃ sA ∈ h1, sA.registered = true ∧ sA.username = a) ∧
      handleWebSocket h1 t2 idB b = AdmitResult.admitted h2 (joinAnn b) ∧
      (∃ sA ∈ h2, sA.registered = true ∧ sA.username = a) ∧
      (∃ sB ∈ h2, sB.registered = true ∧ sB.username = b) ∧
      handleWebSocket h2 t3 idC c = AdmitResult.rejected dupNotice := by
  have hAany : h.any (fun s => s.registered && eqFold s.username a) = false :=
    any_false_of_not_fold h a (fun s hs hr => (hfresh s hs hr).1)
  have hBany : h.any (fun s => s.registered && eqFold s.username b) = false :=
    any_false_of_not_fold h b (fun s hs hr => (hfresh s hs hr).2)
  refine ⟨(registerClient h t1 idA a).1,
    (registerClient (registerClient h t1 idA a).1 t2 idB b).1,
    handleWebSocket_admitted h t1 idA a hAany,
    registerClient_mem h t1 idA a,
    handleWebSocket_admitted _ t2 idB b
      (registerClient_any_false h t1 idA a b hBany hab),
    ?_, registerClient_mem _ t2 idB b, ?_⟩
  · obtain ⟨sA, hmem, hreg, hname⟩ := registerClient_mem h t1 idA a
    exact ⟨sA, registerClient_mem_mono _ t2 idB b sA hmem, hreg, hname⟩
  · apply handleWebSocket_rejected
    obtain ⟨sA, hmem, hreg, hname⟩ := registerClient_mem h t1 idA a
    rw [List.any_eq_true]
    exact ⟨sA, registerClient_mem_mono _ t2 idB b sA hmem,
      by simp [hreg, hname, hvar]⟩

/-- Witness for C3: on an empty hub, "Alice" then "bob" are both admitted and
registered, and a subsequent "ALICE" is rejected with the duplicate notice. -/
theorem c3_username_uniqueness_witness :
    ∃ h1 h2 : Hub,
      handleWebSocket [] 0 0 "Alice" = AdmitResult.admitted h1 (joinAnn "Alice") ∧
      (∃ sA ∈ h1, sA.registered = true ∧ sA.username = "Alice") ∧
      handleWebSocket h1 0 1 "bob" = AdmitResult.admitted h2 (joinAnn "bob") ∧
      (∃ sA ∈ h2, sA.registered = true ∧ sA.username = "Alice") ∧
      (∃ sB ∈ h2, sB.registered = true ∧ sB.username = "bob") ∧
      handleWebSocket h2 0 2 "ALICE" = AdmitResult.rejected dupNotice :=
  c3_username_uniqueness [] "Alice" "bob" "ALICE" 0 0 0 0 1 2
    (by decide) (by decide) (by decide) (by simp) (by decide)

/-- A hub with alice (identity 0) and bob (identity 1) registered, queues
empty. -/
def c4Hub : Hub :=
  [⟨0, "alice", 0, [], true, false⟩, ⟨1, "bob", 0, [], true, false⟩]

/-- Claim C4 counterexample: for `/whisper bob ` the split yields the parts
"bob" and "" — not two non-empty parts, so the claim requires a usage error
only — yet the code delivers an empty-bodied PM to bob and a confirmation to
alice; and for `/whisper  hi` (empty target) the code replies
"User '' not found" instead of the usage error. -/
theorem c4_whisper_counterexample :
    handleCommand c4Hub 0 0 "/whisper bob " =
      CmdResult.done [⟨0, "alice", 0, ["[PM to bob]: "], true, false⟩,
                      ⟨1, "bob", 0, ["[PM from alice]: "], true, false⟩] ∧
    handleCommand c4Hub 0 0 "/whisper bob " ≠ sendTo c4Hub 0 usageMsg ∧
    handleCommand c4Hub 0 0 "/whisper  hi" =
      CmdResult.done [⟨0, "alice", 0, ["User '' not found"], true, false⟩,
                      ⟨1, "bob", 0, [], true, false⟩] := by
  refine ⟨by decide, by decide, by decide⟩

/-- Claim C4 as amended: the usage error is sent exactly when the text after
`"/whisper "` contains no space at all (the split yields one part); when a
space occurs the two parts may be empty — the trimmed first part (possibly
empty) is resolved case-insensitively among registered sessions, an absent
target gets exactly `User '<name>' not found` to the sender, and a present
target gets the PM (possibly empty-bodied) followed by the sender
confirmation. -/
theorem c4_whisper_split (h : Hub) (now : Int) (senderId : Nat) (rest : String) :
    (breakAtSpace rest.data = none →
      handleCommand h now senderId ("/whisper " ++ rest) =
        sendTo h senderId usageMsg) ∧
    (∀ a b : List Char, breakAtSpace rest.data = some (a, b) →
      (h.find? (fun s => s.registered && eqFold s.username (goTrim (String.mk a))) =
          none →
        handleCommand h now senderId ("/whisper " ++ rest) =
          sendTo h senderId
            ("User '" ++ goTrim (String.mk a) ++ "' not found")) ∧
      (∀ t : Sess,
        h.find? (fun s => s.registered && eqFold s.username (goTrim (String.mk a))) =
          some t →
        handleCommand h now senderId ("/whisper " ++ rest) =
          andThen
            (sendTo h t.id
              ("[PM from " ++ usernameOf h senderId ++ "]: " ++ String.mk b))
            senderId
            ("[PM to " ++ goTrim (String.mk a) ++ "]: " ++ String.mk b))) := by
  have h1 : strEq ("/whisper " ++ rest) "/help" = false := by
    simp [strEq, String.data_append]
  have h2 : strEq ("/whisper " ++ rest) "/users" = false := by
    simp [strEq, String.data_append]
  have h3 : strEq ("/whisper " ++ rest) "/time" = false := by
    simp [strEq, String.data_append]
  have h4 : strStartsWith ("/whisper " ++ rest) "/whisper " = true := by
    rw [strStartsWith, String.data_append,
      show "/whisper ".data = ['/', 'w', 'h', 'i', 's', 'p', 'e', 'r', ' '] from rfl]
    simp [listIsPre]
  have h5 : ("/whisper " ++ rest).data.drop 9 = rest.data := by
    rw [String.data_append,
      show "/whisper ".data = ['/', 'w', 'h', 'i', 's', 'p', 'e', 'r', ' '] from rfl]
    rfl
  refine ⟨?_, ?_⟩
  · intro hna
    simp only [handleCommand, h1, h2, h3, h4, h5, Bool.false_eq_true, if_false,
      if_true, hna]
  · intro a b hab
    constructor
    · intro hfind
      simp only [handleCommand, h1, h2, h3, h4, h5, Bool.false_eq_true, if_false,
        if_true, hab, hfind]
    · intro t hfind
      simp only [handleCommand, h1, h2, h3, h4, h5, Bool.false_eq_true, if_false,
        if_true, hab, hfind]

/-- Witness for C4 (amended) at `/whisper bob hi` with bob registered: the
PM goes to bob and the confirmation to alice. -/
theorem c4_whisper_split_witness :
    handleCommand c4Hub 0 0 ("/whisper " ++ "bob hi") =
      andThen
        (sendTo c4Hub 1
          ("[PM from " ++ usernameOf c4Hub 0 ++ "]: " ++ String.mk "hi".data))
        0 ("[PM to " ++ goTrim (String.mk "bob".data) ++ "]: " ++ String.mk "hi".data) :=
  ((c4_whisper_split c4Hub 0 0 "bob hi").2 "bob".data "hi".data (by decide)).2
    ⟨1, "bob", 0, [], true, false⟩ (by decide)

/-- Claim C5 counterexample: a whitespace-only message read by the server's
reader pump is not ignored — it is wrapped and submitted to broadcast
(`readPumpEffects` of the single inbound message " " is one broadcast
submission, not none as the claim states). -/
theorem c5_readpump_counterexample :
    readPumpEffects "alice" [" "] = (["alice:  "], []) ∧
    readPumpEffects "alice" [" "] ≠ (([] : List Msg), ([] : List String)) := by
  refine ⟨by decide, by decide⟩

/-- Claim C5 as amended: the server's reader pump routes every `/`-prefixed
input to the command interpreter (and does not broadcast it) and wraps and
broadcasts every other input — including empty or whitespace-only ones; the
empty/whitespace filter exists only in the client's input loop, which skips
such lines before sending. -/
theorem c5_read_routing (uname msgText : String) :
    (strStartsWith msgText "/" = true →
      readPumpRoute uname msgText = ReadAction.command msgText) ∧
    (strStartsWith msgText "/" = false →
      readPumpRoute uname msgText =
        ReadAction.broadcast (uname ++ ": " ++ msgText)) ∧
    (goTrim msgText = "" → clientInputStep msgText = ClientInputAction.skip) := by
  refine ⟨?_, ?_, ?_⟩
  · intro hp
    simp [readPumpRoute, hp]
  · intro hp
    simp [readPumpRoute, hp]
  · intro ht
    simp [clientInputStep, ht, strEq]

/-- Witness for C5 (amended): `/help` is routed to the interpreter, "hey" is
wrapped and broadcast, and the client-side loop skips a whitespace-only
line. -/
theorem c5_read_routing_witness :
    readPumpRoute "alice" "/help" = ReadAction.command "/help" ∧
    readPumpRoute "alice" "hey" = ReadAction.broadcast "alice: hey" ∧
    clientInputStep "  " = ClientInputAction.skip :=
  ⟨(c5_read_routing "alice" "/help").1 (by decide),
   (c5_read_routing "alice" "hey").2.1 (by decide),
   (c5_read_routing "alice" "  ").2.2 (by decide)⟩

/-- Claim C7 counterexample: "x" has invalid shape (the client would refuse
it), yet the server's admission registers it on a fresh hub — no rejection
notice, no close, a session is registered — because the server performs no
shape validation at all. -/
theorem c7_shape_counterexample :
    validateUsername "x" = some "username must be between 2 and 20 characters" ∧
    handleWebSocket [] 0 0 "x" =
      AdmitResult.admitted [⟨0, "x", 0, [mkWelcome "x" 1], true, false⟩]
        (joinAnn "x") ∧
    (∀ m : Msg, handleWebSocket [] 0 0 "x" ≠ AdmitResult.rejected m) := by
  refine ⟨by decide, by decide, ?_⟩
  intro m hm
  rw [show handleWebSocket [] 0 0 "x" =
      AdmitResult.admitted [⟨0, "x", 0, [mkWelcome "x" 1], true, false⟩]
        (joinAnn "x") from by decide] at hm
  exact AdmitResult.noConfusion hm

/-- Claim C7 as amended: shape validation happens only client-side —
`RunClient` returns an error (before any connection exists) exactly for
usernames of byte length outside 2..20 or containing one of the six
forbidden characters — while the server admits any proposed username
without a case-insensitive collision regardless of shape, and rejects (one
notice, close, no registration) only on collision. -/
theorem c7_shape_validation_client_only (u : String) (h : Hub) (now : Int)
    (id : Nat) :
    (validateUsername u = none ↔
      (2 ≤ u.utf8ByteSize ∧ u.utf8ByteSize ≤ 20 ∧
        ∀ c ∈ u.data, badChar c = false)) ∧
    (h.any (fun s => s.registered && eqFold s.username u) = false →
      handleWebSocket h now id u =
        AdmitResult.admitted (registerClient h now id u).1 (joinAnn u) ∧
      ∃ s ∈ (registerClient h now id u).1, s.registered = true ∧ s.username = u) ∧
    (h.any (fun s => s.registered && eqFold s.username u) = true →
      handleWebSocket h now id u = AdmitResult.rejected dupNotice) := by
  refine ⟨?_,
    fun hno => ⟨handleWebSocket_admitted h now id u hno,
      registerClient_mem h now id u⟩,
    handleWebSocket_rejected h now id u⟩
  constructor
  · intro hv
    by_cases h1 : u.utf8ByteSize < 2
    · simp [validateUsername, h1] at hv
    · by_cases h2 : u.utf8ByteSize > 20
      · simp [validateUsername, h1, h2] at hv
      · refine ⟨by omega, by omega, ?_⟩
        intro c hc
        by_cases h3 : u.data.any badChar = true
        · simp [validateUsername, h1, h2, h3] at hv
        · cases hb : badChar c
          · rfl
          · exact absurd (List.any_eq_true.mpr ⟨c, hc, hb⟩) h3
  · rintro ⟨h1, h2, h3⟩
    have hb : u.data.any badChar = false := by
      rw [List.any_eq_false]
      intro c hc
      simp [h3 c hc]
    have c1 : ¬ u.utf8ByteSize < 2 := by omega
    have c2 : ¬ u.utf8ByteSize > 20 := by omega
    simp [validateUsername, c1, c2, hb]

/-- Witness for C7 (amended) at the valid name "ab" on the empty hub. -/
theorem c7_shape_validation_client_only_witness :
    (validateUsername "ab" = none ↔
      (2 ≤ "ab".utf8ByteSize ∧ "ab".utf8ByteSize ≤ 20 ∧
        ∀ c ∈ "ab".data, badChar c = false)) ∧
    (([] : Hub).any (fun s => s.registered && eqFold s.username "ab") = false →
      handleWebSocket [] 0 0 "ab" =
        AdmitResult.admitted (registerClient [] 0 0 "ab").1 (joinAnn "ab") ∧
      ∃ s ∈ (registerClient [] 0 0 "ab").1,
        s.registered = true ∧ s.username = "ab") ∧
    (([] : Hub).any (fun s => s.registered && eqFold s.username "ab") = true →
      handleWebSocket [] 0 0 "ab" = AdmitResult.rejected dupNotice) :=
  c7_shape_validation_client_only "ab" [] 0 0

/-- The hub state a command outcome is in: the new state of a completed
handler, the state at the moment of blocking for a blocked one, nothing for
a panic. -/
def resultState : CmdResult → Option Hub
  | CmdResult.done h => some h
  | CmdResult.blockedFull h _ _ => some h
  | CmdResult.panicked => none

/-- `h2` differs from `h` only by messages appended to some queues: same
length, and positionwise the same identity, username, join time,
registration flag and closed flag, with each queue extended by a (possibly
empty) tail.  In particular no session is removed, unregistered or closed
between `h` and `h2`. -/
def extendsOnly (h h2 : Hub) : Prop :=
  h2.length = h.length ∧
  ∀ (i : Nat) (s : Sess), h[i]? = some s →
    ∃ s2 : Sess, h2[i]? = some s2 ∧ s2.id = s.id ∧ s2.username = s.username ∧
      s2.joinTime = s.joinTime ∧ s2.registered = s.registered ∧
      s2.closed = s.closed ∧ ∃ tail : List Msg, s2.queue = s.queue ++ tail

lemma extendsOnly_refl (h : Hub) : extendsOnly h h := by
  refine ⟨rfl, ?_⟩
  intro i s hs
  exact ⟨s, hs, rfl, rfl, rfl, rfl, rfl, [], by simp⟩

lemma extendsOnly_trans (a b c : Hub) (hab : extendsOnly a b)
    (hbc : extendsOnly b c) : extendsOnly a c := by
  obtain ⟨l1, f1⟩ := hab
  obtain ⟨l2, f2⟩ := hbc
  refine ⟨l2.trans l1, ?_⟩
  intro i s hs
  obtain ⟨s2, hs2, e1, e2, e3, e4, e5, t1, hq1⟩ := f1 i s hs
  obtain ⟨s3, hs3, g1, g2, g3, g4, g5, t2, hq2⟩ := f2 i s2 hs2
  exact ⟨s3, hs3, g1.trans e1, g2.trans e2, g3.trans e3, g4.trans e4,
    g5.trans e5, t1 ++ t2, by rw [hq2, hq1, List.append_assoc]⟩

lemma sendTo_done_extendsOnly (h : Hub) (id : Nat) (m : Msg) (h2 : Hub)
    (hr : sendTo h id m = CmdResult.done h2) : extendsOnly h h2 := by
  unfold sendTo at hr
  split at hr
  · exact CmdResult.noConfusion hr
  · split at hr
    · exact CmdResult.noConfusion hr
    · split at hr
      · injection hr with hh
        subst hh
        refine ⟨by simp, ?_⟩
        intro i s0 hs0
        rw [List.getElem?_map, hs0]
        by_cases hid : (s0.id == id) = true
        · exact ⟨_, rfl, by simp [hid], by simp [hid], by simp [hid],
            by simp [hid], by simp [hid], [m], by simp [hid]⟩
        · exact ⟨_, rfl, by simp [hid], by simp [hid], by simp [hid],
            by simp [hid], by simp [hid], [], by simp [hid]⟩
      · exact CmdResult.noConfusion hr

lemma sendTo_blockedFull_props (h : Hub) (id : Nat) (m : Msg) (h' : Hub)
    (i' : Nat) (m' : Msg)
    (hr : sendTo h id m = CmdResult.blockedFull h' i' m') :
    h' = h ∧ i' = id ∧ m' = m ∧
      ∃ s : Sess, h.find? (fun t => t.id == id) = some s ∧ s.closed = false ∧
        sendQueueCap ≤ s.queue.length := by
  unfold sendTo at hr
  split at hr
  · exact CmdResult.noConfusion hr
  · rename_i s hf
    split at hr
    · exact CmdResult.noConfusion hr
    · rename_i hc
      split at hr
      · exact CmdResult.noConfusion hr
      · rename_i hlen
        injection hr with e1 e2 e3
        exact ⟨e1.symm, e2.symm, e3.symm, s, hf, by simpa using hc,
          Nat.le_of_not_lt hlen⟩

lemma sendTo_state_extendsOnly (h : Hub) (id : Nat) (m : Msg) (h2 : Hub)
    (hr : resultState (sendTo h id m) = some h2) : extendsOnly h h2 := by
  cases hcase : sendTo h id m with
  | done h1 =>
    rw [hcase] at hr
    injection hr with hh
    subst hh
    exact sendTo_done_extendsOnly h id m h1 hcase
  | blockedFull h1 a b =>
    rw [hcase] at hr
    injection hr with hh
    subst hh
    obtain ⟨he, -, -, -⟩ := sendTo_blockedFull_props h id m h1 a b hcase
    rw [he]
    exact extendsOnly_refl h
  | panicked =>
    rw [hcase] at hr
    exact Option.noConfusion hr

lemma andThen_state_extendsOnly (h : Hub) (r : CmdResult) (id : Nat) (m : Msg)
    (h2 : Hub)
    (hbase : ∀ h1 : Hub, resultState r = some h1 → extendsOnly h h1)
    (hr : resultState (andThen r id m) = some h2) : extendsOnly h h2 := by
  cases r with
  | done h1 =>
    simp only [andThen] at hr
    exact extendsOnly_trans h h1 h2 (hbase h1 rfl)
      (sendTo_state_extendsOnly h1 id m h2 hr)
  | blockedFull h1 a b =>
    simp only [andThen, resultState, Option.some.injEq] at hr
    exact hr ▸ hbase h1 rfl
  | panicked =>
    simp only [andThen, resultState] at hr
    exact Option.noConfusion hr

lemma handleCommand_state_extendsOnly (h : Hub) (now : Int) (senderId : Nat)
    (cmd : String) (h2 : Hub)
    (hr : resultState (handleCommand h now senderId cmd) = some h2) :
    extendsOnly h h2 := by
  unfold handleCommand at hr
  split at hr
  · exact sendTo_state_extendsOnly h senderId helpMsg h2 hr
  · split at hr
    · exact sendTo_state_extendsOnly h senderId (usersReply h now) h2 hr
    · split at hr
      · exact sendTo_state_extendsOnly h senderId (timeReply now) h2 hr
      · split at hr
        · split at hr
          · exact sendTo_state_extendsOnly h senderId usageMsg h2 hr
          · split at hr
            · exact sendTo_state_extendsOnly h senderId _ h2 hr
            · exact andThen_state_extendsOnly h _ senderId _ h2
                (fun h1 hr1 => sendTo_state_extendsOnly h _ _ h1 hr1) hr
        · exact sendTo_state_extendsOnly h senderId (unknownReply cmd) h2 hr

lemma blockedFull_target (base : Hub) (target : Nat) (msg : Msg) (h2 : Hub)
    (id : Nat) (m : Msg)
    (hr : sendTo base target msg = CmdResult.blockedFull h2 id m) :
    ∃ s : Sess, h2.find? (fun t => t.id == id) = some s ∧ s.closed = false ∧
      sendQueueCap ≤ s.queue.length := by
  obtain ⟨he, e2, -, s, hf, hc, hl⟩ :=
    sendTo_blockedFull_props base target msg h2 id m hr
  subst he
  subst e2
  exact ⟨s, hf, hc, hl⟩

lemma andThen_blockedFull (base : Hub) (target : Nat) (pm : Msg)
    (senderId : Nat) (conf : Msg) (h2 : Hub) (id : Nat) (m : Msg)
    (hr : andThen (sendTo base target pm) senderId conf =
      CmdResult.blockedFull h2 id m) :
    ∃ s : Sess, h2.find? (fun t => t.id == id) = some s ∧ s.closed = false ∧
      sendQueueCap ≤ s.queue.length := by
  cases hs : sendTo base target pm with
  | done h1 =>
    rw [hs] at hr
    simp only [andThen] at hr
    exact blockedFull_target h1 senderId conf h2 id m hr
  | blockedFull hb a b =>
    rw [hs] at hr
    simp only [andThen] at hr
    injection hr with e1 e2 e3
    subst e1
    subst e2
    subst e3
    exact blockedFull_target base target pm _ _ _ hs
  | panicked =>
    rw [hs] at hr
    simp only [andThen] at hr
    exact CmdResult.noConfusion hr

lemma handleCommand_blockedFull (h : Hub) (now : Int) (senderId : Nat)
    (cmd : String) (h2 : Hub) (id : Nat) (m : Msg)
    (hr : handleCommand h now senderId cmd = CmdResult.blockedFull h2 id m) :
    ∃ s : Sess, h2.find? (fun t => t.id == id) = some s ∧ s.closed = false ∧
      sendQueueCap ≤ s.queue.length := by
  unfold handleCommand at hr
  split at hr
  · exact blockedFull_target h senderId helpMsg h2 id m hr
  · split at hr
    · exact blockedFull_target h senderId (usersReply h now) h2 id m hr
    · split at hr
      · exact blockedFull_target h senderId (timeReply now) h2 id m hr
      · split at hr
        · split at hr
          · exact blockedFull_target h senderId usageMsg h2 id m hr
          · split at hr
            · exact blockedFull_target h senderId _ h2 id m hr
            · exact andThen_blockedFull h _ _ senderId _ h2 id m hr
        · exact blockedFull_target h senderId (unknownReply cmd) h2 id m hr

/-- Claim C8 as amended: command replies are plain blocking enqueues, not
the broadcast drop-on-full policy.  Whatever the command, the resulting hub
(of a completed or blocked handler) keeps every session with its identity,
registration flag and open/closed state intact and only appends to queues —
no session is ever dropped or closed on the command path — and whenever the
interpreter's send does not complete it is blocked on a full, still-open
queue, waiting for space. -/
theorem c8_reply_blocking_no_drop (h : Hub) (now : Int) (senderId : Nat)
    (cmd : String) :
    (∀ h2 : Hub, resultState (handleCommand h now senderId cmd) = some h2 →
      extendsOnly h h2) ∧
    (∀ (h2 : Hub) (id : Nat) (m : Msg),
      handleCommand h now senderId cmd = CmdResult.blockedFull h2 id m →
      ∃ s : Sess, h2.find? (fun t => t.id == id) = some s ∧ s.closed = false ∧
        sendQueueCap ≤ s.queue.length) :=
  ⟨fun h2 => handleCommand_state_extendsOnly h now senderId cmd h2,
   fun h2 id m => handleCommand_blockedFull h now senderId cmd h2 id m⟩

/-- A hub whose only session has a full queue. -/
def c8Hub : Hub := [⟨0, "alice", 0, List.replicate 256 "x", true, false⟩]

/-- Claim C8 counterexample: replying to `/time` with the sender's queue
full leaves the interpreter blocked with the hub unchanged — the sender is
still registered and its queue still open — whereas the broadcast path at
the same state closes the queue and drops the session; so a command reply on
a full queue does not get the broadcast drop-on-full handling the claim
asserts, and the interpreter does block. -/
theorem c8_reply_counterexample :
    handleCommand c8Hub 0 0 "/time" =
      CmdResult.blockedFull c8Hub 0 (timeReply 0) ∧
    (∃ s ∈ c8Hub, s.id = 0 ∧ s.registered = true ∧ s.closed = false) ∧
    broadcastMessage c8Hub "x" =
      [⟨0, "alice", 0, List.replicate 256 "x", false, true⟩] := by
  refine ⟨by decide, by decide, by decide⟩

/-- Witness for C8 (amended): a completed `/help` reply only appends the
help text to the sender's queue. -/
theorem c8_reply_blocking_no_drop_witness :
    extendsOnly [⟨0, "alice", 0, [], true, false⟩]
      [⟨0, "alice", 0, [helpMsg], true, false⟩] :=
  (c8_reply_blocking_no_drop [⟨0, "alice", 0, [], true, false⟩] 0 0 "/help").1
    [⟨0, "alice", 0, [helpMsg], true, false⟩] (by decide)

/-- Claim C9: the `/users` reply is one enqueue of a message computed as a
pure function of a single hub snapshot: the listed entries are exactly the
registered sessions' entries (one per session), each formatted as
`<name> (connected for <duration>)` with the duration `now` minus the join
time rounded to whole seconds — non-negative whenever the clock is at or
past the join time — and the count in the header is the length of the same
snapshot list, i.e. the registry size at snapshot time. -/
theorem c9_users_snapshot (h : Hub) (now : Int) (senderId : Nat) :
    (getClientList h now).length = (h.filter (fun s => s.registered)).length ∧
    (∀ s ∈ h, s.registered = true → fmtUser now s ∈ getClientList h now) ∧
    (∀ e ∈ getClientList h now,
      ∃ s ∈ h, s.registered = true ∧ e = fmtUser now s) ∧
    (∀ s : Sess, s.joinTime ≤ now → 0 ≤ goRoundSecond (now - s.joinTime)) ∧
    handleCommand h now senderId "/users" = sendTo h senderId (usersReply h now) ∧
    usersReply h now =
      "Connected users (" ++ toString (getClientList h now).length ++ "):\n" ++
        String.join ((getClientList h now).enum.map
          (fun p => toString (p.1 + 1) ++ ". " ++ p.2 ++ "\n")) ∧
    (∀ s : Sess, fmtUser now s =
      s.username ++ " (connected for " ++
        goDurString (goRoundSecond (now - s.joinTime)) ++ ")") := by
  refine ⟨by simp [getClientList], ?_, ?_, ?_, rfl, rfl, fun s => rfl⟩
  · intro s hs hr
    exact List.mem_map_of_mem (fmtUser now)
      (List.mem_filter.mpr ⟨hs, hr⟩)
  · intro e he
    obtain ⟨s, hs, he⟩ := List.mem_map.mp he
    obtain ⟨hmem, hreg⟩ := List.mem_filter.mp hs
    exact ⟨s, hmem, hreg, he.symm⟩
  · intro s hj
    unfold goRoundSecond
    rw [if_pos (by omega)]
    exact Int.ediv_nonneg (by omega) (by norm_num)

/-- Witness for C9: alice joined at 0, listed at 90.5 s with a rounded
91-second duration; the entry is in the snapshot and the rounded duration is
non-negative. -/
theorem c9_users_snapshot_witness :
    fmtUser 90500000000 ⟨0, "alice", 0, [], true, false⟩ ∈
      getClientList [⟨0, "alice", 0, [], true, false⟩] 90500000000 ∧
    0 ≤ goRoundSecond (90500000000 - (0 : Int)) :=
  ⟨(c9_users_snapshot [⟨0, "alice", 0, [], true, false⟩] 90500000000 0).2.1
      ⟨0, "alice", 0, [], true, false⟩ (by decide) rfl,
   (c9_users_snapshot [] 90500000000 0).2.2.2.1
      ⟨0, "alice", 0, [], true, false⟩ (by decide)⟩

/-- Claim C10: the server's interpreter treats `/exit` as an unknown
command — the reply is exactly the unknown-command notice, the hub keeps
every session registered and open (nothing is disconnected or
unregistered) — even though the `/help` text lists `/exit`; the actual
disconnect on `/exit` happens only in the client's input loop, which sends
a close frame instead of forwarding the line. -/
theorem c10_exit_unknown (h : Hub) (now : Int) (senderId : Nat) :
    handleCommand h now senderId "/exit" =
      sendTo h senderId (unknownReply "/exit") ∧
    unknownReply "/exit" =
      "Unknown command: /exit. Type /help for available commands." ∧
    (∀ h2 : Hub, resultState (handleCommand h now senderId "/exit") = some h2 →
      extendsOnly h h2) ∧
    (∃ a b : String, helpMsg = a ++ "/exit - Exit the chat" ++ b) ∧
    clientInputStep "/exit" = ClientInputAction.closeFrame := by
  refine ⟨rfl, rfl, ?_, ?_, by decide⟩
  · intro h2 hr
    exact handleCommand_state_extendsOnly h now senderId "/exit" h2 hr
  · exact ⟨"\nAvailable commands:\n/help - Show this help message\n/users - List all connected users\n/time - Show current server time\n",
      "\n/whisper <username> <message> - Send private message to a user\n",
      by decide⟩

/-- Witness for C10 on a concrete hub with alice registered. -/
theorem c10_exit_unknown_witness :
    handleCommand [⟨0, "alice", 0, [], true, false⟩] 0 0 "/exit" =
      sendTo [⟨0, "alice", 0, [], true, false⟩] 0 (unknownReply "/exit") ∧
    clientInputStep "/exit" = ClientInputAction.closeFrame :=
  ⟨(c10_exit_unknown [⟨0, "alice", 0, [], true, false⟩] 0 0).1,
   (c10_exit_unknown [⟨0, "alice", 0, [], true, false⟩] 0 0).2.2.2.2⟩
